import Mathlib

/-!
Verification development for the Universal Minecraft Server Launcher
(`MC_Server_Main.py`).  The Python core is shallowly embedded: pure helpers
become Lean functions, the stateful supervisor becomes explicit state
passing, and interactions with the operating system (file existence, the
external process, stream writes and kill signals) are supplied through
explicit environment records whose fields describe the outcome of each
individual OS call the Python code makes.
-/

namespace MCLauncher

/-! ## String primitives

Python `x in s` (substring test), `s.lower()`, `s.replace(a, b)` and
`s.endswith(c)` modelled over `List Char` / `String`. -/

/-- Substring test on character lists: `isSubL n h` is true iff `n` occurs
contiguously inside `h`.  Models Python `n in h` on strings. -/
def isSubL (n : List Char) : List Char → Bool
  | [] => n.isEmpty
  | c :: t => n.isPrefixOf (c :: t) || isSubL n t

/-- Python `needle in hay` for strings. -/
def containsSub (hay needle : String) : Bool :=
  isSubL needle.data hay.data

/-- Python `s.lower()` (ASCII-adequate: every keyword compared against is
ASCII). -/
def lowerStr (s : String) : String :=
  String.mk (s.data.map Char.toLower)

/-- Fuel-driven replacement of every non-overlapping occurrence of `pat`
(left to right), the semantics of Python `s.replace(pat, rep)` for a
non-empty `pat`.  The fuel is the length of the scanned list, which bounds
the number of steps. -/
def replaceFuel (pat rep : List Char) : Nat → List Char → List Char
  | 0, s => s
  | _, [] => []
  | fuel + 1, c :: cs =>
    if pat ≠ [] ∧ pat.isPrefixOf (c :: cs) then
      rep ++ replaceFuel pat rep fuel ((c :: cs).drop pat.length)
    else
      c :: replaceFuel pat rep fuel cs

/-- Python `s.replace(pat, rep)` (for the non-empty patterns used by the
launcher). -/
def strReplace (s pat rep : String) : String :=
  String.mk (replaceFuel pat.data rep.data s.data.length s.data)

/-- Python `cmd.endswith('\n')`: test on the last character. -/
def endsWithNewline (cmd : String) : Bool :=
  cmd.data.getLast? = some '\x0a'

/-- Python `command += '\n' if not command.endswith('\n')` from
`send_command` (line 536-537). -/
def newlineTerminated (cmd : String) : String :=
  if endsWithNewline cmd then cmd else cmd ++ "\n"

/-! ## POSIX path normalisation

`load_config` stores `Path(config.get("server_dir", ...))`; `save_config`
writes `str(self.server_dir)`.  `pathlib` drops empty and `"."` path
components when parsing, so `str(Path(s))` is a normalisation of `s`.
`pathNorm` models this `str(PurePosixPath(s))` round trip (the rare
double-leading-slash root form is normalised to a single slash here). -/

/-- Split a character list on `'/'`; always returns at least one (possibly
empty) component, like Python `s.split('/')`. -/
def splitSlash : List Char → List (List Char)
  | [] => [[]]
  | c :: cs =>
    match splitSlash cs with
    | [] => [[]]
    | h :: t => if c = '/' then [] :: h :: t else (c :: h) :: t

/-- Join components with `'/'` separators (inverse of `splitSlash` on
clean components). -/
def joinSlash : List (List Char) → List Char
  | [] => []
  | [a] => a
  | a :: b :: t => a ++ '/' :: joinSlash (b :: t)

/-- Drop the path components `pathlib` ignores: empty ones and `"."`. -/
def cleanParts (l : List (List Char)) : List (List Char) :=
  l.filter (fun c => decide (c ≠ [] ∧ c ≠ ['.']))

/-- Parse a path string into (is-absolute, components), the pathlib view. -/
def pathParse (s : List Char) : Bool × List (List Char) :=
  (decide (s.head? = some '/'), cleanParts (splitSlash s))

/-- Components as `pathParse` produces them: nonempty, not `"."`, and free
of separators. -/
def PartsOk (cs : List (List Char)) : Prop :=
  ∀ p ∈ cs, p ≠ [] ∧ p ≠ ['.'] ∧ ∀ c ∈ p, c ≠ '/'

/-- Render a parsed path back to text, `str(PurePosixPath(...))`. -/
def pathStrL : Bool × List (List Char) → List Char
  | (ab, []) => if ab then ['/'] else ['.']
  | (ab, c :: cs) => (if ab then ['/'] else []) ++ joinSlash (c :: cs)

/-- `str(PurePosixPath(s))`: parse then render. -/
def pathNorm (s : String) : String :=
  String.mk (pathStrL (pathParse s.data))

/-- Python `Path(dir) / child` rendered as a string: pathlib drops an
empty trailing component, so joining with `""` yields `dir` itself. -/
def joinPath (dir child : String) : String :=
  if child = "" then dir else dir ++ "/" ++ child

/-! ## ServerCoreManager (lines 44-230) -/

/-- One entry of `ServerCoreManager.CORE_TYPES`. -/
structure CoreTypeInfo where
  name : String
  website : String
  description : String
  download_pattern : String
deriving DecidableEq, Repr

/-- `ServerCoreManager.CORE_TYPES` (lines 48-109), key order preserved. -/
def CORE_TYPES : List (String × CoreTypeInfo) :=
  [("purpur", ⟨"Purpur", "https://purpurmc.org",
      "高性能Paper分支，提供额外优化和功能",
      "https://api.purpurmc.org/v2/purpur/{version}/latest/download"⟩),
   ("paper", ⟨"Paper", "https://papermc.io",
      "高性能Spigot分支，修复大量BUG",
      "https://api.papermc.io/v2/projects/paper/versions/{version}/builds/{build}/downloads/paper-{version}-{build}.jar"⟩),
   ("spigot", ⟨"Spigot", "https://spigotmc.org",
      "Bukkit优化版本，性能更好",
      "https://download.spigotmc.org/spigot/spigot-{version}.jar"⟩),
   ("craftbukkit", ⟨"CraftBukkit", "https://bukkit.org",
      "原版Bukkit服务端",
      "https://download.craftbukkit.org/craftbukkit-{version}.jar"⟩),
   ("vanilla", ⟨"Vanilla", "https://minecraft.net",
      "官方原版服务端",
      "https://launcher.mojang.com/v1/objects/{hash}/server.jar"⟩),
   ("fabric", ⟨"Fabric", "https://fabricmc.net",
      "轻量级模组加载器",
      "https://meta.fabricmc.net/v2/versions/loader/{version}/{loader}/server/jar"⟩),
   ("forge", ⟨"Forge", "https://files.minecraftforge.net",
      "经典模组加载器",
      "https://maven.minecraftforge.net/net/minecraftforge/forge/{version}/forge-{version}-installer.jar"⟩),
   ("neoforge", ⟨"NeoForge", "https://neoforged.net",
      "Forge的分支，现代版本",
      "https://maven.neoforged.net/releases/net/neoforged/forge/{version}/forge-{version}-installer.jar"⟩),
   ("catserver", ⟨"CatServer", "https://catserver.moe",
      "Forge和Bukkit兼容的服务端",
      "https://github.com/Luohuayu/CatServer/releases/download/{version}/catserver-{version}.jar"⟩),
   ("mohist", ⟨"Mohist", "https://mohistmc.com",
      "Forge和Bukkit兼容的服务端",
      "https://mohistmc.com/api/v2/projects/mohist/{version}/builds/{build}/downloads/mohist-{version}-{build}.jar"⟩)]

/-- One entry of `ServerCoreManager.MIRROR_SITES`. -/
structure MirrorSite where
  name : String
  url : String
  patterns : List (String × String)
deriving DecidableEq, Repr

/-- `ServerCoreManager.MIRROR_SITES` (lines 112-140). -/
def MIRROR_SITES : List (String × MirrorSite) :=
  [("mslmc", ⟨"MSLMC镜像站", "https://dl.mslmc.cn/",
      [("paper", "https://dl.mslmc.cn"),
       ("purpur", "https://dl.mslmc.cn"),
       ("vanilla", "https://dl.mslmc.cn"),
       ("spigot", "https://dl.mslmc.cn"),
       ("craftbukkit", "https://dl.mslmc.cn")]⟩),
   ("bmclapi", ⟨"BMCLAPI镜像站", "https://bmclapi2.bangbang93.com/",
      [("paper", "https://bmclapi2.bangbang93.com/projects/paper/versions/{version}/builds/{build}/downloads/paper-{version}-{build}.jar"),
       ("purpur", "https://bmclapi2.bangbang93.com/projects/purpur/versions/{version}/builds/{build}/downloads/purpur-{version}-{build}.jar"),
       ("vanilla", "https://bmclapi2.bangbang93.com/version/{version}/server"),
       ("fabric", "https://bmclapi2.bangbang93.com/fabric-meta/v2/versions/loader/{version}/{loader}/server/jar"),
       ("forge", "https://bmclapi2.bangbang93.com/maven/net/minecraftforge/forge/{version}/forge-{version}-installer.jar")]⟩),
   ("mc", ⟨"官方源", "官方源", []⟩)]

/-- The on-disk artifact as `detect_core_type` observes it: whether the
path exists, its (file) name, and the result of opening it as a zip and
looking for `net/minecraft/server/Main.class` — `none` models the zip
inspection raising (caught by the bare `except` on line 194), `some b`
models a successful inspection that found (`true`) or did not find
(`false`) the class file. -/
structure JarFile where
  exists_ : Bool
  name : String
  zipMain : Option Bool

/-- `ServerCoreManager.detect_core_type` (lines 161-197). -/
def detect_core_type (f : JarFile) : String :=
  if f.exists_ = false then "unknown"
  else if containsSub (lowerStr f.name) "purpur" then "purpur"
  else if containsSub (lowerStr f.name) "paper" then "paper"
  else if containsSub (lowerStr f.name) "spigot" then "spigot"
  else if containsSub (lowerStr f.name) "craftbukkit" then "craftbukkit"
  else if containsSub (lowerStr f.name) "fabric" then "fabric"
  else if containsSub (lowerStr f.name) "forge" || containsSub (lowerStr f.name) "neoforge" then "forge"
  else if containsSub (lowerStr f.name) "mohist" then "mohist"
  else if containsSub (lowerStr f.name) "catserver" then "catserver"
  else if containsSub (lowerStr f.name) "server" && !containsSub (lowerStr f.name) "vanilla" then
    match f.zipMain with
    | some true => "vanilla"
    | _ => "unknown"
  else "unknown"

/-- The vendor keywords in the order `detect_core_type` tests them, each
paired with the tag the detector returns for it (lines 170-185; `forge`
and `neoforge` share one branch that returns `"forge"`, and since
`"neoforge"` contains `"forge"` the `forge` entry always fires first). -/
def priorityList : List (String × String) :=
  [("purpur", "purpur"), ("paper", "paper"), ("spigot", "spigot"),
   ("craftbukkit", "craftbukkit"), ("fabric", "fabric"),
   ("forge", "forge"), ("neoforge", "neoforge"),
   ("mohist", "mohist"), ("catserver", "catserver")]

/-- First keyword of a priority list occurring in `n`, mapped to its tag. -/
def findTag (n : String) : List (String × String) → Option String
  | [] => none
  | kt :: rest => if containsSub n kt.1 then some kt.2 else findTag n rest

/-- The first vendor keyword (in detection priority order) occurring in a
lowercased filename, as a tag. -/
def firstKeywordTag (n : String) : Option String :=
  findTag n priorityList

/-- `ServerCoreManager.get_download_url` (lines 209-230).  The first arm is
the mirror-table lookup (`mirror in MIRROR_SITES and core_type in
patterns`), the second the fallback to the core's own
`download_pattern` — which is the empty string (Python-falsy) exactly for
unknown cores, and which returns `None` for `vanilla`. -/
def get_download_url (core_type version mirror : String) : Option String :=
  match (MIRROR_SITES.lookup mirror).bind (fun m => m.patterns.lookup core_type) with
  | some pattern =>
    if containsSub pattern "{build}" then
      some (strReplace (strReplace pattern "{version}" version) "{build}" "latest")
    else
      some (strReplace pattern "{version}" version)
  | none =>
    match CORE_TYPES.lookup core_type with
    | some info =>
      if info.download_pattern = "" then none
      else if core_type = "vanilla" then none
      else some (strReplace info.download_pattern "{version}" version)
    | none => none

/-! ## Profile persistence (`load_config` / `save_config`, lines 262-316)

The JSON record written by `json.dump` is modelled as an association list
of key/value pairs in insertion order; string, boolean and integer values
cover every value the launcher stores. -/

/-- A JSON scalar as stored in `server_launcher.json`. -/
inductive JVal where
  | s (v : String)
  | b (v : Bool)
  | n (v : Nat)
deriving DecidableEq, Repr

/-- The in-memory profile attributes of `UniversalServer` that
`save_config`/`load_config` persist.  `server_dir` holds
`str(self.server_dir)` — in the source it is a `Path`; here the path
value is carried as its rendered string. -/
structure UniversalServer where
  server_dir : String
  server_jar : String
  java_opts : String
  core_type : String
  minecraft_version : String
  mirror_site : String
deriving DecidableEq, Repr

/-- `config.get(key, default)` for the string-valued keys of the persisted
record (every key `load_config` reads is stored as a string by
`save_config`). -/
def getS (cf : List (String × JVal)) (key dflt : String) : String :=
  match cf.lookup key with
  | some (JVal.s v) => v
  | _ => dflt

/-- The record `save_config` writes when called with `config=None`
(lines 300-308): exactly the six profile fields plus `last_modified`,
in dict-literal insertion order.  `ts` is `datetime.now().isoformat()`. -/
def save_config (s : UniversalServer) (ts : String) : List (String × JVal) :=
  [("server_dir", JVal.s s.server_dir),
   ("server_jar", JVal.s s.server_jar),
   ("java_opts", JVal.s s.java_opts),
   ("core_type", JVal.s s.core_type),
   ("minecraft_version", JVal.s s.minecraft_version),
   ("mirror_site", JVal.s s.mirror_site),
   ("last_modified", JVal.s ts)]

/-- The `default_config` record `load_config` persists on first load of a
directory with no existing record (lines 264-274). -/
def default_config (s : UniversalServer) : List (String × JVal) :=
  [("server_dir", JVal.s s.server_dir),
   ("server_jar", JVal.s s.server_jar),
   ("java_opts", JVal.s s.java_opts),
   ("core_type", JVal.s "unknown"),
   ("minecraft_version", JVal.s ""),
   ("auto_backup", JVal.b true),
   ("backup_interval", JVal.n 3600),
   ("max_backups", JVal.n 10),
   ("mirror_site", JVal.s "mslmc")]

/-- The file-exists-and-parses branch of `load_config` (lines 278-285):
each field is taken from the record with the source's defaults, and
`server_dir` passes through `Path(...)` — i.e. `pathNorm` at save time. -/
def load_config (s : UniversalServer) (cf : List (String × JVal)) : UniversalServer :=
  { server_dir := pathNorm (getS cf "server_dir" s.server_dir)
    server_jar := getS cf "server_jar" s.server_jar
    java_opts := getS cf "java_opts" s.java_opts
    core_type := getS cf "core_type" "unknown"
    minecraft_version := getS cf "minecraft_version" ""
    mirror_site := getS cf "mirror_site" "mslmc" }

/-! ## EULA handling and `start_server` (lines 340-472) -/

/-- The OS-facing outcomes `start_server` depends on.  `eulaContent` is
the content of `eula.txt` (`none` when the file does not exist);
`eulaReadOk` is whether reading it succeeds (the bare `except` on
line 352); `eulaWriteOk` is whether `accept_eula`'s write succeeds;
`fsExists` answers `Path.exists()` for the paths the launcher probes;
`spawnOk` is whether `subprocess.Popen` returns without raising;
`javaProbeOk` is whether `subprocess.run(["java", "-version"])` runs and
exits 0, and `javaFound` whether `find_java()` locates a fallback
installation. -/
structure StartEnv where
  javaProbeOk : Bool
  javaFound : Bool
  fsExists : String → Bool
  eulaContent : Option String
  eulaReadOk : Bool
  eulaWriteOk : Bool
  spawnOk : Bool

/-- `UniversalServer.check_eula` (lines 340-355): true exactly when the
marker file exists, is readable, and its lowercased content contains the
substring `"eula=true"`. -/
def check_eula (env : StartEnv) : Bool :=
  match env.eulaContent with
  | none => false
  | some c => env.eulaReadOk && containsSub (lowerStr c) "eula=true"

/-- The marker content `accept_eula` writes (lines 362-365), with `ts` the
generation timestamp inserted by `.format`. -/
def eulaTemplate (ts : String) : String :=
  "#By changing the setting below to TRUE you are indicating your agreement to our EULA (https://aka.ms/MinecraftEULA).\n#Generated by Universal Minecraft Server Launcher\n# "
    ++ ts ++ "\neula=true"

/-- The failure classes of `start_server`, one per early-return `print`
site (spec section 7 taxonomy). -/
inductive StartFail where
  | RuntimeNotFound
  | ArtifactMissing
  | LicenseNotAccepted
  | ProcessSpawnFailed
deriving DecidableEq, Repr

/-- Result and effects of one `start_server` call. -/
structure StartOutcome where
  success : Bool
  spawned : Bool
  eulaWritten : Option String
  propsWritten : Bool
  reason : Option StartFail
deriving DecidableEq, Repr

/-- `UniversalServer.start_server` (lines 399-472): probe Java (with the
`find_java` fallback), check the artifact path `self.server_dir /
self.server_jar` exists, self-heal the EULA marker, create default
properties if absent, then spawn. -/
def start_server (p : UniversalServer) (env : StartEnv) (ts : String) : StartOutcome :=
  if !(env.javaProbeOk || env.javaFound) then
    ⟨false, false, none, false, some StartFail.RuntimeNotFound⟩
  else if !env.fsExists (joinPath p.server_dir p.server_jar) then
    ⟨false, false, none, false, some StartFail.ArtifactMissing⟩
  else
    let eulaOk := check_eula env
    if !eulaOk && !env.eulaWriteOk then
      ⟨false, false, none, false, some StartFail.LicenseNotAccepted⟩
    else
      let written := if eulaOk then none else some (eulaTemplate ts)
      let props := !env.fsExists (joinPath p.server_dir "server.properties")
      if env.spawnOk then ⟨true, true, written, props, none⟩
      else ⟨false, false, written, props, some StartFail.ProcessSpawnFailed⟩

/-! ## `stop_server` and status (lines 532-624)

The external process is an oracle: `alive n` is the result of the n-th
`poll()` call made during one `stop_server` invocation (`true` meaning
`poll() is None`, i.e. still running).  The poll sites, in order: index 0
is the guard on line 550, index 1 is either the `send_command` guard
(line 534, graceful path) or the re-check on line 568 (forced path),
then the 1-second wait loop consumes one index per iteration, and the
graceful path's re-check / the forced path's post-grace check use the
next index. -/

/-- Supervisor state relevant to stopping: the process handle (pid when
`self.process` is not `None`), the `is_running` flag, and `start_time`. -/
structure SupState where
  process : Option Nat
  isRunning : Bool
  startTime : Option Nat
deriving DecidableEq, Repr

/-- OS behaviour during one `stop_server` call.  The `*Raises` fields say
whether the corresponding call (`Popen.terminate`, `Popen.kill`,
`subprocess.run(["taskkill", ...])`) raises; `stdinWriteOk` whether the
stdin write in `send_command` succeeds. -/
structure StopEnv where
  alive : Nat → Bool
  isWindows : Bool
  terminateRaises : Bool
  killRaises : Bool
  taskkillRaises : Bool
  stdinWriteOk : Bool

/-- `UniversalServer.send_command` (lines 532-546) at poll index `idx`:
returns whether it reported success together with the lines it wrote to
the process's stdin. -/
def send_command (st : SupState) (env : StopEnv) (idx : Nat) (cmd : String) :
    Bool × List String :=
  match st.process with
  | none => (false, [])
  | some _ =>
    if env.alive idx then
      if env.stdinWriteOk then (true, [newlineTerminated cmd]) else (false, [])
    else (false, [])

/-- The 30-iteration wait loop of `stop_server` (lines 562-565) starting
at poll index `idx` with `fuel` iterations left: returns the next unused
poll index and the number of 1-second sleeps performed. -/
def waitForExit (env : StopEnv) : Nat → Nat → Nat × Nat
  | idx, 0 => (idx, 0)
  | idx, fuel + 1 =>
    if env.alive idx then
      let r := waitForExit env (idx + 1) fuel
      (r.1, r.2 + 1)
    else (idx + 1, 0)

/-- Result and effect trace of one `stop_server` call. -/
structure StopTrace where
  ret : Bool
  st : SupState
  writes : List String
  slept : Nat
  terminateCalls : Nat
  killCalls : Nat
  taskkillCalls : Nat
deriving DecidableEq, Repr

/-- The state mutation on lines 552-553 / 588-589: clear the liveness
flag and start time.  `self.process` is not assigned anywhere in
`stop_server`, so the handle field is kept. -/
def markStopped (st : SupState) : SupState :=
  { st with isRunning := false, startTime := none }

/-- `UniversalServer.stop_server` (lines 548-595).  A raising
terminate/kill/taskkill call lands in the `except` block (lines 593-595):
the call returns `False` and the state fields are left untouched. -/
def stop_server (st : SupState) (env : StopEnv) (force : Bool) : StopTrace :=
  match st.process with
  | none => ⟨true, markStopped st, [], 0, 0, 0, 0⟩
  | some _ =>
    if !env.alive 0 then ⟨true, markStopped st, [], 0, 0, 0, 0⟩
    else if !force then
      let writes := (send_command st env 1 "stop").2
      let w := waitForExit env 2 30
      if env.alive w.1 then
        if env.isWindows then
          if env.terminateRaises then ⟨false, st, writes, w.2, 1, 0, 0⟩
          else ⟨true, markStopped st, writes, w.2, 1, 0, 0⟩
        else
          if env.killRaises then ⟨false, st, writes, w.2, 0, 1, 0⟩
          else ⟨true, markStopped st, writes, w.2, 0, 1, 0⟩
      else ⟨true, markStopped st, writes, w.2, 0, 0, 0⟩
    else
      if env.alive 1 then
        if env.isWindows then
          if env.terminateRaises then ⟨false, st, [], 0, 1, 0, 0⟩
          else if env.alive 2 then
            if env.taskkillRaises then ⟨false, st, [], 2, 1, 0, 1⟩
            else ⟨true, markStopped st, [], 2, 1, 0, 1⟩
          else ⟨true, markStopped st, [], 2, 1, 0, 0⟩
        else
          if env.killRaises then ⟨false, st, [], 0, 0, 1, 0⟩
          else if env.alive 2 then ⟨true, markStopped st, [], 2, 0, 2, 0⟩
          else ⟨true, markStopped st, [], 2, 0, 1, 0⟩
      else ⟨true, markStopped st, [], 0, 0, 0, 0⟩

/-- The fields of the `get_status` snapshot (lines 603-624) the claims
refer to: `running` is `self.is_running`, `pid` is
`self.process.pid if self.process else None`. -/
structure StatusSnapshot where
  running : Bool
  pid : Option Nat
deriving DecidableEq, Repr

/-- `UniversalServer.get_status`, restricted to the liveness fields. -/
def get_status (s : SupState) : StatusSnapshot :=
  ⟨s.isRunning, s.process⟩

/-! ## Substring lemmas -/

/-- `isSubL` agrees with the mathematical definition of contiguous
substring occurrence. -/
theorem isSubL_iff (n h : List Char) :
    isSubL n h = true ↔ ∃ s t, h = s ++ n ++ t := by
  induction h with
  | nil =>
    simp only [isSubL, List.isEmpty_iff]
    constructor
    · rintro rfl; exact ⟨[], [], rfl⟩
    · rintro ⟨s, t, hst⟩
      rcases List.append_eq_nil.mp (List.append_eq_nil.mp hst.symm).1 with ⟨_, h2⟩
      exact h2
  | cons c h ih =>
    simp only [isSubL, Bool.or_eq_true, List.isPrefixOf_iff_prefix, ih]
    constructor
    · rintro (⟨t, ht⟩ | ⟨s, t, rfl⟩)
      · exact ⟨[], t, by simp [ht]⟩
      · exact ⟨c :: s, t, by simp⟩
    · rintro ⟨s, t, hst⟩
      cases s with
      | nil => exact Or.inl ⟨t, by simpa using hst.symm⟩
      | cons a s =>
        rw [List.cons_append, List.cons_append, List.cons.injEq] at hst
        exact Or.inr ⟨s, t, hst.2⟩

/-- Any string containing `"neoforge"` also contains `"forge"`. -/
theorem containsSub_forge_of_neoforge (n : String)
    (h : containsSub n "neoforge" = true) : containsSub n "forge" = true := by
  unfold containsSub at h ⊢
  rw [isSubL_iff] at h ⊢
  obtain ⟨s, t, e⟩ := h
  refine ⟨s ++ ['n', 'e', 'o'], t, ?_⟩
  have hneo : ("neoforge".data) = ['n', 'e', 'o'] ++ "forge".data := rfl
  rw [e, hneo]
  simp

/-- The marker written by `accept_eula` contains the acceptance substring
whatever the timestamp is. -/
theorem eulaTemplate_contains (ts : String) :
    containsSub (eulaTemplate ts) "eula=true" = true := by
  unfold containsSub eulaTemplate
  rw [isSubL_iff]
  refine ⟨"#By changing the setting below to TRUE you are indicating your agreement to our EULA (https://aka.ms/MinecraftEULA).\n#Generated by Universal Minecraft Server Launcher\n# ".data
      ++ ts.data ++ ['\x0a'], [], ?_⟩
  have hap : ∀ x y : String, (x ++ y).data = x.data ++ y.data := fun _ _ => rfl
  have hnl : ("\neula=true").data = '\x0a' :: "eula=true".data := rfl
  rw [hap, hap, hnl, List.append_nil, List.append_assoc, List.append_assoc,
    List.singleton_append, List.append_assoc]

/-! ## Path normalisation lemmas -/

/-- `splitSlash` always yields at least one component. -/
theorem splitSlash_ne_nil (s : List Char) : splitSlash s ≠ [] := by
  cases s with
  | nil => simp [splitSlash]
  | cons c cs =>
    unfold splitSlash
    cases h : splitSlash cs with
    | nil => simp
    | cons a l => dsimp only; split <;> simp

/-- Splitting after a leading separator. -/
theorem splitSlash_slash_cons (cs : List Char) :
    splitSlash ('/' :: cs) = [] :: splitSlash cs := by
  have hdef : splitSlash ('/' :: cs) =
      (match splitSlash cs with
       | [] => [[]]
       | h :: t => if ('/' : Char) = '/' then [] :: h :: t else ('/' :: h) :: t) := rfl
  rw [hdef]
  cases h : splitSlash cs with
  | nil => exact absurd h (splitSlash_ne_nil cs)
  | cons a l => simp

/-- Splitting a separator-free block followed by anything. -/
theorem splitSlash_append (a : List Char) (s : List Char) (h' : List Char)
    (t : List (List Char)) (ha : ∀ c ∈ a, c ≠ '/')
    (hs : splitSlash s = h' :: t) :
    splitSlash (a ++ s) = (a ++ h') :: t := by
  induction a with
  | nil => simpa using hs
  | cons c a ih =>
    have hc : c ≠ '/' := ha c (by simp)
    have ha' : ∀ x ∈ a, x ≠ '/' := fun x hx => ha x (by simp [hx])
    have hrec := ih ha'
    rw [List.cons_append]
    unfold splitSlash
    rw [hrec]
    simp [hc]

/-- A separator-free string splits into itself. -/
theorem splitSlash_noslash (a : List Char) (ha : ∀ c ∈ a, c ≠ '/') :
    splitSlash a = [a] := by
  have h := splitSlash_append a [] [] [] ha (by simp [splitSlash])
  simpa using h

/-- `splitSlash` inverts `joinSlash` on nonempty separator-free parts. -/
theorem splitSlash_joinSlash :
    ∀ l : List (List Char), (∀ p ∈ l, ∀ c ∈ p, c ≠ '/') → l ≠ [] →
      splitSlash (joinSlash l) = l := by
  intro l
  induction l with
  | nil => intro _ h; exact absurd rfl h
  | cons a rest ih =>
    intro hp _
    cases rest with
    | nil =>
      simpa [joinSlash] using splitSlash_noslash a (hp a (by simp))
    | cons b t =>
      have ihr := ih (fun p hmem c hc => hp p (by simp [hmem]) c hc) (by simp)
      have h2 : splitSlash ('/' :: joinSlash (b :: t)) = [] :: b :: t := by
        rw [splitSlash_slash_cons, ihr]
      rw [joinSlash, splitSlash_append a ('/' :: joinSlash (b :: t)) [] (b :: t)
        (hp a (by simp)) h2]
      simp

/-- Every component produced by `splitSlash` is separator-free. -/
theorem splitSlash_parts_noslash (s : List Char) :
    ∀ p ∈ splitSlash s, ∀ c ∈ p, c ≠ '/' := by
  induction s with
  | nil => simp [splitSlash]
  | cons c cs ih =>
    unfold splitSlash
    cases h : splitSlash cs with
    | nil => simp
    | cons a l =>
      have ih' : ∀ p ∈ a :: l, ∀ x ∈ p, x ≠ '/' := h ▸ ih
      dsimp only
      split
      · intro p hp
        rcases List.mem_cons.mp hp with rfl | hp'
        · simp
        · exact ih' p hp'
      · intro p hp
        rcases List.mem_cons.mp hp with rfl | hp'
        · intro x hx
          rcases List.mem_cons.mp hx with rfl | hx'
          · assumption
          · exact ih' a (by simp) x hx'
        · exact ih' p (by simp [hp'])

/-- What `pathParse` returns is always clean. -/
theorem partsOk_pathParse (s : List Char) : PartsOk (pathParse s).2 := by
  intro p hp
  have h1 := List.mem_filter.mp hp
  have h2 := of_decide_eq_true h1.2
  exact ⟨h2.1, h2.2, splitSlash_parts_noslash s p h1.1⟩

/-- `joinSlash` of a nonempty head starts with that head. -/
theorem joinSlash_cons (c : List Char) (cs : List (List Char)) :
    ∃ r, joinSlash (c :: cs) = c ++ r := by
  cases cs with
  | nil => exact ⟨[], by simp [joinSlash]⟩
  | cons b t => exact ⟨'/' :: joinSlash (b :: t), rfl⟩

/-- Rendering then re-parsing is the identity on clean parsed paths. -/
theorem pathParse_pathStrL (ab : Bool) (cs : List (List Char)) (h : PartsOk cs) :
    pathParse (pathStrL (ab, cs)) = (ab, cs) := by
  cases cs with
  | nil => cases ab <;> rfl
  | cons c cs' =>
    obtain ⟨hne, _, hns⟩ := h c (by simp)
    have hall : ∀ p ∈ c :: cs', ∀ x ∈ p, x ≠ '/' := fun p hp x hx => (h p hp).2.2 x hx
    have hj : splitSlash (joinSlash (c :: cs')) = c :: cs' :=
      splitSlash_joinSlash (c :: cs') hall (by simp)
    have hclean : cleanParts (c :: cs') = c :: cs' := by
      apply List.filter_eq_self.mpr
      intro p hp
      exact decide_eq_true ⟨(h p hp).1, (h p hp).2.1⟩
    cases ab with
    | true =>
      show pathParse ('/' :: joinSlash (c :: cs')) = (true, c :: cs')
      unfold pathParse
      rw [splitSlash_slash_cons, hj]
      refine Prod.ext (by simp) ?_
      show cleanParts ([] :: c :: cs') = c :: cs'
      unfold cleanParts
      rw [List.filter_cons_of_neg (by simp)]
      exact hclean
    | false =>
      show pathParse ([] ++ joinSlash (c :: cs')) = (false, c :: cs')
      obtain ⟨r, hr⟩ := joinSlash_cons c cs'
      unfold pathParse
      rw [List.nil_append, hj]
      refine Prod.ext ?_ hclean
      cases c with
      | nil => exact absurd rfl hne
      | cons x xs =>
        have hx : x ≠ '/' := hns x (by simp)
        simp only [hr, List.cons_append, List.head?_cons]
        simpa using hx

/-- `pathNorm` is idempotent: `str(Path(str(Path(s)))) = str(Path(s))`. -/
theorem pathNorm_idem (s : String) : pathNorm (pathNorm s) = pathNorm s := by
  unfold pathNorm
  show String.mk (pathStrL (pathParse (pathStrL (pathParse s.data)))) = _
  have h := pathParse_pathStrL (pathParse s.data).1 (pathParse s.data).2
    (partsOk_pathParse s.data)
  rw [Prod.mk.eta] at h
  rw [h]

/-! ## Persistence round trip -/

/-- Loading a record written by `save_config` recovers every field, with
`server_dir` passing through the `Path` constructor (`pathNorm`). -/
theorem load_config_save_config (s q : UniversalServer) (ts : String) :
    load_config s (save_config q ts) =
      { q with server_dir := pathNorm q.server_dir } := rfl

/-- C6: the persisted profile record round-trips losslessly through save
and load — loading a saved record recovers `server_dir, server_jar,
java_opts, core_type, minecraft_version, mirror_site` unchanged (for the
already-normalised directory string every in-memory profile carries), and
applying save-after-load twice yields a record identical to applying it
once (idempotent persistence). -/
theorem config_round_trip (s : UniversalServer) (cf : List (String × JVal))
    (ts ts' : String) :
    (pathNorm s.server_dir = s.server_dir →
      load_config s (save_config s ts) = s)
  ∧ save_config (load_config s (save_config (load_config s cf) ts)) ts'
      = save_config (load_config s cf) ts' := by
  constructor
  · intro h
    rw [load_config_save_config, h]
  · rw [load_config_save_config]
    have h : pathNorm (load_config s cf).server_dir
        = (load_config s cf).server_dir := pathNorm_idem _
    rw [h]

/-- Witness for `config_round_trip` at a concrete profile. -/
theorem config_round_trip_witness :
    load_config ⟨"/srv/mc", "paper-1.21.4.jar", "-Xmx2048M -Xms2048M",
        "paper", "1.21.4", "mslmc"⟩
      (save_config ⟨"/srv/mc", "paper-1.21.4.jar", "-Xmx2048M -Xms2048M",
        "paper", "1.21.4", "mslmc"⟩ "2024-01-01T00:00:00")
    = ⟨"/srv/mc", "paper-1.21.4.jar", "-Xmx2048M -Xms2048M",
        "paper", "1.21.4", "mslmc"⟩ :=
  (config_round_trip ⟨"/srv/mc", "paper-1.21.4.jar", "-Xmx2048M -Xms2048M",
      "paper", "1.21.4", "mslmc"⟩ [] "2024-01-01T00:00:00" "x").1 (by decide)

/-- C10: a `save_config` call without an explicit record writes exactly
the six profile keys plus `last_modified`, and never the retention keys
`auto_backup`, `backup_interval`, `max_backups` — which the first-time
`default_config` record does persist. -/
theorem save_config_exact_keys (s : UniversalServer) (ts : String) :
    (save_config s ts).map Prod.fst =
      ["server_dir", "server_jar", "java_opts", "core_type",
       "minecraft_version", "mirror_site", "last_modified"]
  ∧ (save_config s ts).lookup "auto_backup" = none
  ∧ (save_config s ts).lookup "backup_interval" = none
  ∧ (save_config s ts).lookup "max_backups" = none
  ∧ (default_config s).lookup "auto_backup" = some (JVal.b true)
  ∧ (default_config s).lookup "backup_interval" = some (JVal.n 3600)
  ∧ (default_config s).lookup "max_backups" = some (JVal.n 10) :=
  ⟨rfl, rfl, rfl, rfl, rfl, rfl, rfl⟩

/-! ## Artifact identification -/

/-- C8: identification of a nonexistent path returns the `"unknown"` tag
deterministically (the function is total, so it cannot raise). -/
theorem detect_core_type_missing_unknown (f : JarFile) (h : f.exists_ = false) :
    detect_core_type f = "unknown" := by
  simp [detect_core_type, h]

/-- Witness for `detect_core_type_missing_unknown`. -/
theorem detect_core_type_missing_unknown_witness :
    detect_core_type ⟨false, "paper-1.21.4.jar", none⟩ = "unknown" :=
  detect_core_type_missing_unknown ⟨false, "paper-1.21.4.jar", none⟩ rfl

/-- Unfolding equation for `findTag`. -/
theorem findTag_cons (n k v : String) (rest : List (String × String)) :
    findTag n ((k, v) :: rest) = if containsSub n k then some v else findTag n rest := rfl

/-- C4: for every existing file whose lowercased name contains a known
vendor keyword, `detect_core_type` returns the tag of the first matching
keyword in the fixed priority order (`priorityList`), independent of case
and surrounding text. -/
theorem detect_core_type_first_keyword (f : JarFile) (t : String)
    (hex : f.exists_ = true) (hm : firstKeywordTag (lowerStr f.name) = some t) :
    detect_core_type f = t := by
  unfold firstKeywordTag priorityList at hm
  cases h1 : containsSub (lowerStr f.name) "purpur" with
  | true =>
    simp [findTag_cons, h1] at hm
    subst hm
    simp [detect_core_type, hex, h1]
  | false =>
  cases h2 : containsSub (lowerStr f.name) "paper" with
  | true =>
    simp [findTag_cons, h1, h2] at hm
    subst hm
    simp [detect_core_type, hex, h1, h2]
  | false =>
  cases h3 : containsSub (lowerStr f.name) "spigot" with
  | true =>
    simp [findTag_cons, h1, h2, h3] at hm
    subst hm
    simp [detect_core_type, hex, h1, h2, h3]
  | false =>
  cases h4 : containsSub (lowerStr f.name) "craftbukkit" with
  | true =>
    simp [findTag_cons, h1, h2, h3, h4] at hm
    subst hm
    simp [detect_core_type, hex, h1, h2, h3, h4]
  | false =>
  cases h5 : containsSub (lowerStr f.name) "fabric" with
  | true =>
    simp [findTag_cons, h1, h2, h3, h4, h5] at hm
    subst hm
    simp [detect_core_type, hex, h1, h2, h3, h4, h5]
  | false =>
  cases h6 : containsSub (lowerStr f.name) "forge" with
  | true =>
    simp [findTag_cons, h1, h2, h3, h4, h5, h6] at hm
    subst hm
    simp [detect_core_type, hex, h1, h2, h3, h4, h5, h6]
  | false =>
  cases h7 : containsSub (lowerStr f.name) "neoforge" with
  | true => exact absurd (containsSub_forge_of_neoforge _ h7) (by simp [h6])
  | false =>
  cases h8 : containsSub (lowerStr f.name) "mohist" with
  | true =>
    simp [findTag_cons, h1, h2, h3, h4, h5, h6, h7, h8] at hm
    subst hm
    simp [detect_core_type, hex, h1, h2, h3, h4, h5, h6, h7, h8]
  | false =>
  cases h9 : containsSub (lowerStr f.name) "catserver" with
  | true =>
    simp [findTag_cons, h1, h2, h3, h4, h5, h6, h7, h8, h9] at hm
    subst hm
    simp [detect_core_type, hex, h1, h2, h3, h4, h5, h6, h7, h8, h9]
  | false =>
    simp [findTag_cons, findTag, h1, h2, h3, h4, h5, h6, h7, h8, h9] at hm

/-- Witness for `detect_core_type_first_keyword`: a mixed-case name
containing two vendor keywords resolves to the higher-priority one. -/
theorem detect_core_type_first_keyword_witness :
    detect_core_type ⟨true, "PurPur-Paper-1.21.4.JAR", none⟩ = "purpur" :=
  detect_core_type_first_keyword ⟨true, "PurPur-Paper-1.21.4.JAR", none⟩
    "purpur" rfl (by decide)

/-- C9 counterexample: an existing file whose name contains `"neoforge"`
together with a higher-priority keyword is not identified as `"forge"`,
so the claim's universal first clause fails as stated. -/
theorem detect_neoforge_priority_cex :
    containsSub (lowerStr "paper-neoforge.jar") "neoforge" = true
  ∧ detect_core_type ⟨true, "paper-neoforge.jar", none⟩ = "paper" :=
  ⟨rfl, rfl⟩

/-- C9 amended: an existing file whose lowercased name contains
`"neoforge"` and none of the earlier-priority keywords is identified as
`"forge"`, and the identifier never outputs the `"neoforge"` tag although
that tag is a key of `CORE_TYPES`. -/
theorem detect_neoforge_forge_amended :
    (∀ f : JarFile, f.exists_ = true →
      containsSub (lowerStr f.name) "neoforge" = true →
      containsSub (lowerStr f.name) "purpur" = false →
      containsSub (lowerStr f.name) "paper" = false →
      containsSub (lowerStr f.name) "spigot" = false →
      containsSub (lowerStr f.name) "craftbukkit" = false →
      containsSub (lowerStr f.name) "fabric" = false →
      detect_core_type f = "forge")
  ∧ (∀ f : JarFile, detect_core_type f ≠ "neoforge")
  ∧ (CORE_TYPES.lookup "neoforge").isSome = true := by
  refine ⟨?_, ?_, rfl⟩
  · intro f hex hneo h1 h2 h3 h4 h5
    simp [detect_core_type, hex, hneo, h1, h2, h3, h4, h5]
  · intro f h
    unfold detect_core_type at h
    repeat' split at h
    all_goals simp_all

/-- Witness for `detect_neoforge_forge_amended`. -/
theorem detect_neoforge_forge_witness :
    detect_core_type ⟨true, "x-NeoForge-21.1.77.jar", none⟩ = "forge"
  ∧ detect_core_type ⟨true, "x-NeoForge-21.1.77.jar", none⟩ ≠ "neoforge" :=
  ⟨detect_neoforge_forge_amended.1 ⟨true, "x-NeoForge-21.1.77.jar", none⟩
      rfl (by decide) (by decide) (by decide) (by decide) (by decide) (by decide),
   detect_neoforge_forge_amended.2.1 ⟨true, "x-NeoForge-21.1.77.jar", none⟩⟩

/-! ## EULA self-healing on start -/

/-- C7: when the license marker is absent or not affirmative at
`start_server` time, the supervisor writes the acceptance template (which
contains `eula=true`) and the launch proceeds; and the lowercased-content
substring test of `check_eula` is the sole acceptance signal. -/
theorem eula_auto_accept (p : UniversalServer) (env : StartEnv) (ts : String)
    (hj : (env.javaProbeOk || env.javaFound) = true)
    (hjar : env.fsExists (joinPath p.server_dir p.server_jar) = true)
    (he : check_eula env = false)
    (hw : env.eulaWriteOk = true) (hs : env.spawnOk = true) :
    ((start_server p env ts).success = true
     ∧ (start_server p env ts).spawned = true
     ∧ (start_server p env ts).eulaWritten = some (eulaTemplate ts)
     ∧ containsSub (eulaTemplate ts) "eula=true" = true)
  ∧ ∀ env' : StartEnv, check_eula env' = true ↔
      ∃ c, env'.eulaContent = some c ∧ env'.eulaReadOk = true
        ∧ containsSub (lowerStr c) "eula=true" = true := by
  constructor
  · unfold start_server
    simp [hj, hjar, he, hw, hs, eulaTemplate_contains]
  · intro env'
    unfold check_eula
    cases hc : env'.eulaContent with
    | none => simp [hc]
    | some c => simp [hc]

/-- Witness for `eula_auto_accept`: absent marker, everything else
healthy. -/
theorem eula_auto_accept_witness :
    (start_server ⟨"/srv/mc", "paper.jar", "-Xmx2048M -Xms2048M", "paper",
        "1.21.4", "mslmc"⟩
      ⟨true, false, fun _ => true, none, true, true, true⟩ "2024-01-01").success = true
  ∧ (start_server ⟨"/srv/mc", "paper.jar", "-Xmx2048M -Xms2048M", "paper",
        "1.21.4", "mslmc"⟩
      ⟨true, false, fun _ => true, none, true, true, true⟩ "2024-01-01").eulaWritten
      = some (eulaTemplate "2024-01-01") :=
  ⟨((eula_auto_accept ⟨"/srv/mc", "paper.jar", "-Xmx2048M -Xms2048M", "paper",
        "1.21.4", "mslmc"⟩
      ⟨true, false, fun _ => true, none, true, true, true⟩ "2024-01-01"
      rfl rfl rfl rfl rfl).1).1,
   (((eula_auto_accept ⟨"/srv/mc", "paper.jar", "-Xmx2048M -Xms2048M", "paper",
        "1.21.4", "mslmc"⟩
      ⟨true, false, fun _ => true, none, true, true, true⟩ "2024-01-01"
      rfl rfl rfl rfl rfl).1).2).2.1⟩

/-! ## start_server with an empty artifact name -/

/-- C2 (code bug): with no artifact configured (`server_jar = ""`),
`Path(server_dir) / ""` is the server directory itself, which exists, so
the artifact-existence check passes and `start_server` spawns a process
and returns success instead of failing with the artifact-missing error.
Evaluated here at the failing input: an existing empty directory
`/srv/mc`, Java available, no EULA marker, all writes and the spawn
succeeding. -/
theorem start_server_empty_artifact_launches :
    joinPath "/srv/mc" "" = "/srv/mc"
  ∧ (start_server ⟨"/srv/mc", "", "-Xmx2048M -Xms2048M", "unknown", "", "mslmc"⟩
      ⟨true, false, fun s => s = "/srv/mc", none, true, true, true⟩
      "2024-01-01").success = true
  ∧ (start_server ⟨"/srv/mc", "", "-Xmx2048M -Xms2048M", "unknown", "", "mslmc"⟩
      ⟨true, false, fun s => s = "/srv/mc", none, true, true, true⟩
      "2024-01-01").spawned = true
  ∧ (start_server ⟨"/srv/mc", "", "-Xmx2048M -Xms2048M", "unknown", "", "mslmc"⟩
      ⟨true, false, fun s => s = "/srv/mc", none, true, true, true⟩
      "2024-01-01").reason = none :=
  ⟨rfl, rfl, rfl, rfl⟩

/-! ## Download URL resolution for vanilla -/

/-- C3 counterexample: resolving vanilla through the default mirror
returns a concrete URL, not the "unresolvable" `None` the claim
promises for every mirror. -/
theorem get_download_url_vanilla_mirror_cex :
    get_download_url "vanilla" "1.21.4" "mslmc" = some "https://dl.mslmc.cn" := rfl

/-- C3 amended: resolving the vanilla core type returns `None` exactly
when the chosen mirror has no vanilla template (the official-source
mirror `"mc"` or an unknown mirror id) — the vendor-default fallback does
always return `None` for vanilla, but the `mslmc` and `bmclapi` mirror
tables resolve vanilla to concrete URLs. -/
theorem get_download_url_vanilla_amended (version mirror : String) :
    ((MIRROR_SITES.lookup mirror).bind (fun m => m.patterns.lookup "vanilla") = none →
      get_download_url "vanilla" version mirror = none)
  ∧ get_download_url "vanilla" version "mc" = none
  ∧ get_download_url "vanilla" version "mslmc" = some "https://dl.mslmc.cn"
  ∧ get_download_url "vanilla" version "bmclapi"
      = some (strReplace "https://bmclapi2.bangbang93.com/version/{version}/server"
          "{version}" version) := by
  refine ⟨?_, rfl, rfl, rfl⟩
  intro h
  unfold get_download_url
  rw [h]
  rfl

/-- Witness for `get_download_url_vanilla_amended` at the official-source
mirror. -/
theorem get_download_url_vanilla_witness :
    get_download_url "vanilla" "1.21.4" "mc" = none :=
  (get_download_url_vanilla_amended "1.21.4" "mc").1 rfl

/-! ## Stopping the supervised process -/

/-- The wait loop sleeps at most one second per remaining iteration. -/
theorem waitForExit_slept_le (env : StopEnv) (idx fuel : Nat) :
    (waitForExit env idx fuel).2 ≤ fuel := by
  induction fuel generalizing idx with
  | zero => simp [waitForExit]
  | succ n ih =>
    unfold waitForExit
    split
    · have := ih (idx + 1)
      dsimp only
      omega
    · simp

/-- C1 counterexample: a `stop_server(force=True)` call on a live process
whose kill call raises returns failure and leaves `is_running` true and
the handle set, so a subsequent `get_status` still reports running. -/
theorem stop_server_raise_keeps_running_cex :
    (stop_server ⟨some 7, true, some 3⟩
      ⟨fun _ => true, false, false, true, false, true⟩ true).ret = false
  ∧ (stop_server ⟨some 7, true, some 3⟩
      ⟨fun _ => true, false, false, true, false, true⟩ true).st.isRunning = true
  ∧ (stop_server ⟨some 7, true, some 3⟩
      ⟨fun _ => true, false, false, true, false, true⟩ true).st.process = some 7
  ∧ (get_status (stop_server ⟨some 7, true, some 3⟩
      ⟨fun _ => true, false, false, true, false, true⟩ true).st).running = true :=
  ⟨rfl, rfl, rfl, rfl⟩

/-- C1 amended: whenever no termination call raises, every `stop_server`
call (forced or graceful, in any state, under any poll outcomes) returns
success, clears the liveness flag and start time, and a subsequent status
reports not-running; and in every path — raising or not — the process
handle attribute is left exactly as it was, never cleared. -/
theorem stop_server_marks_stopped_amended (st : SupState) (env : StopEnv)
    (force : Bool) :
    (env.terminateRaises = false → env.killRaises = false →
      env.taskkillRaises = false →
      (stop_server st env force).ret = true
      ∧ (stop_server st env force).st.isRunning = false
      ∧ (stop_server st env force).st.startTime = none
      ∧ (get_status (stop_server st env force).st).running = false)
  ∧ (stop_server st env force).st.process = st.process := by
  constructor
  · intro ht hk htk
    unfold stop_server
    repeat' split
    all_goals simp_all [markStopped, get_status]
    all_goals (split <;> simp_all [markStopped, get_status])
  · unfold stop_server
    repeat' split
    all_goals simp [markStopped]
    all_goals (split <;> simp [markStopped])

/-- Witness for `stop_server_marks_stopped_amended`: graceful stop of a
live, never-exiting process on Windows with healthy calls. -/
theorem stop_server_marks_stopped_witness :
    (stop_server ⟨some 7, true, some 3⟩
      ⟨fun _ => true, true, false, false, false, true⟩ false).ret = true
  ∧ (stop_server ⟨some 7, true, some 3⟩
      ⟨fun _ => true, true, false, false, false, true⟩ false).st.isRunning = false :=
  ⟨((stop_server_marks_stopped_amended ⟨some 7, true, some 3⟩
      ⟨fun _ => true, true, false, false, false, true⟩ false).1 rfl rfl rfl).1,
   ((stop_server_marks_stopped_amended ⟨some 7, true, some 3⟩
      ⟨fun _ => true, true, false, false, false, true⟩ false).1 rfl rfl rfl).2.1⟩

/-- C5 counterexample: graceful stop of a process that never exits, on a
non-Windows host: the full trace shows the literal `"stop\n"` written and
30 poll-sleeps, but the escalation is a single `kill()` call — no polite
termination signal, no 2-second grace period, and no second
unconditional kill — and the call still reports success. -/
theorem stop_server_graceful_escalation_cex :
    stop_server ⟨some 7, true, some 3⟩
        ⟨fun _ => true, false, false, false, false, true⟩ false
      = ⟨true, ⟨some 7, false, none⟩, ["stop\n"], 30, 0, 1, 0⟩ := rfl

/-- C5 amended: `stop_server(force=False)` on a live process writes the
literal command `"stop"` (newline-terminated) to the process input, polls
liveness once per second for at most 30 seconds, and returns success; if
the process exits within the window no termination call is made, and if
it does not, the escalation is a single call — `terminate()` on Windows,
`kill()` elsewhere — with no grace wait and no further kill (those belong
to the `force=True` path, whose `taskkill` stage is likewise never
reached here). -/
theorem stop_server_graceful_amended (st : SupState) (env : StopEnv) (pid : Nat)
    (hp : st.process = some pid) (h0 : env.alive 0 = true)
    (h1 : env.alive 1 = true) (hw : env.stdinWriteOk = true)
    (ht : env.terminateRaises = false) (hk : env.killRaises = false) :
    (stop_server st env false).writes = ["stop\n"]
  ∧ (stop_server st env false).ret = true
  ∧ (stop_server st env false).st.isRunning = false
  ∧ (stop_server st env false).slept = (waitForExit env 2 30).2
  ∧ (stop_server st env false).slept ≤ 30
  ∧ (stop_server st env false).taskkillCalls = 0
  ∧ (env.alive (waitForExit env 2 30).1 = false →
      (stop_server st env false).terminateCalls = 0
      ∧ (stop_server st env false).killCalls = 0)
  ∧ (env.alive (waitForExit env 2 30).1 = true →
      (env.isWindows = true →
        (stop_server st env false).terminateCalls = 1
        ∧ (stop_server st env false).killCalls = 0)
      ∧ (env.isWindows = false →
        (stop_server st env false).terminateCalls = 0
        ∧ (stop_server st env false).killCalls = 1)) := by
  have hsc : (send_command st env 1 "stop").2 = ["stop\n"] := by
    simp [send_command, hp, h1, hw]
    rfl
  by_cases ha : env.alive (waitForExit env 2 30).1 = true
  · by_cases hwin : env.isWindows = true
    · have he : stop_server st env false =
          ⟨true, markStopped st, ["stop\n"], (waitForExit env 2 30).2, 1, 0, 0⟩ := by
        simp [stop_server, hp, h0, ha, hwin, ht, hsc]
      rw [he]
      refine ⟨rfl, rfl, rfl, rfl, waitForExit_slept_le env 2 30, rfl, ?_, ?_⟩
      · intro hfa; exact absurd ha (by simp [hfa])
      · intro _; exact ⟨fun _ => ⟨rfl, rfl⟩, fun hwf => absurd hwin (by simp [hwf])⟩
    · have he : stop_server st env false =
          ⟨true, markStopped st, ["stop\n"], (waitForExit env 2 30).2, 0, 1, 0⟩ := by
        simp [stop_server, hp, h0, ha, hwin, hk, hsc]
      rw [he]
      refine ⟨rfl, rfl, rfl, rfl, waitForExit_slept_le env 2 30, rfl, ?_, ?_⟩
      · intro hfa; exact absurd ha (by simp [hfa])
      · intro _; exact ⟨fun hwt => absurd hwt hwin, fun _ => ⟨rfl, rfl⟩⟩
  · have he : stop_server st env false =
        ⟨true, markStopped st, ["stop\n"], (waitForExit env 2 30).2, 0, 0, 0⟩ := by
      simp [stop_server, hp, h0, ha, hsc]
    rw [he]
    refine ⟨rfl, rfl, rfl, rfl, waitForExit_slept_le env 2 30, rfl, ?_, ?_⟩
    · intro _; exact ⟨rfl, rfl⟩
    · intro hta; exact absurd hta ha

/-- Witness for `stop_server_graceful_amended`: a live process that exits
after a few seconds in the polling window — the command is written, the
call succeeds, and no termination signal of any kind is sent. -/
theorem stop_server_graceful_witness :
    (stop_server ⟨some 7, true, some 3⟩
      ⟨fun n => n < 5, false, false, false, false, true⟩ false).writes = ["stop\n"]
  ∧ (stop_server ⟨some 7, true, some 3⟩
      ⟨fun n => n < 5, false, false, false, false, true⟩ false).ret = true
  ∧ (stop_server ⟨some 7, true, some 3⟩
      ⟨fun n => n < 5, false, false, false, false, true⟩ false).terminateCalls = 0
  ∧ (stop_server ⟨some 7, true, some 3⟩
      ⟨fun n => n < 5, false, false, false, false, true⟩ false).killCalls = 0 := by
  have A := stop_server_graceful_amended ⟨some 7, true, some 3⟩
    ⟨fun n => n < 5, false, false, false, false, true⟩ 7
    rfl (by decide) (by decide) rfl rfl rfl
  have B := A.2.2.2.2.2.2.1 (by decide)
  exact ⟨A.1, A.2.1, B.1, B.2⟩

end MCLauncher
